import Mathlib

/-!
Verification development for the `range-scanner` poker tooling
(`poker_range_analyzer.py`, `range_query_service.py`).

The Python sources are embedded shallowly:

* strings are Lean `String`s / `List Char`; the hand-history regular
  expressions are embedded as explicit scanners that reproduce the
  leftmost / greedy matching the patterns exhibit on their closed
  character classes;
* Python `float` amounts are modelled as exact rationals (`ℚ`); every
  arithmetic fact stated here only involves values on which IEEE doubles
  are exact, and bucket thresholds are taken at their decimal values;
* `dict`s are association lists with overwrite-on-insert;
* the DuckDB fact table is a list of rows, and the SQL aggregates of the
  query layer are embedded as list filtering / grouping (`GROUP BY` is
  "distinct keys with their multiplicities"; group order in SQL is
  unspecified, here it is the order produced by `List.dedup`).
-/

namespace PokerTools

/-! ## Character-level scanning primitives (embedding of the `re` patterns) -/

/-- Python whitespace as used by `str.strip` and the `\s` class
(ASCII fragment, which is all the hand histories contain). -/
def isPySpace (c : Char) : Bool :=
  c = ' ' || c = '\t' || c = '\n' || c = '\r' || c = '\x0b' || c = '\x0c'

/-- `str.strip()` on a character list. -/
def pyStrip (cs : List Char) : List Char :=
  ((cs.dropWhile isPySpace).reverse.dropWhile isPySpace).reverse

/-- `str.split("\n")`: every `'\n'` is a separator, empty pieces are kept. -/
def splitNl : List Char → List (List Char)
  | [] => [[]]
  | c :: rest =>
    let r := splitNl rest
    if c = '\n' then [] :: r
    else
      match r with
      | [] => [[c]]
      | h :: t => (c :: h) :: t

/-- Match a literal pattern at the head of the input, returning the rest. -/
def eatLit : List Char → List Char → Option (List Char)
  | [], s => some s
  | _ :: _, [] => none
  | p :: ps, c :: cs => if c = p then eatLit ps cs else none

/-- Numeric value of a digit run. -/
def natOfDigits (ds : List Char) : Nat :=
  ds.foldl (fun acc c => 10 * acc + (c.toNat - '0'.toNat)) 0

/-- Greedy `\d+` at the head of the input: the digit run and the rest. -/
def eatDigits (s : List Char) : Option (Nat × List Char) :=
  let ds := s.takeWhile Char.isDigit
  if ds.isEmpty then none else some (natOfDigits ds, s.drop ds.length)

/-- Value of `float("<digits>.<digits>")` as an exact rational. -/
def qOfNumber (intPart fracPart : List Char) : ℚ :=
  (natOfDigits intPart : ℚ) + (natOfDigits fracPart : ℚ) / (10 ^ fracPart.length : ℚ)

/-- Greedy `(\d+\.?\d*)` at the head of the input (the numeric capture used
by the action patterns), as a rational together with the rest. -/
def eatNumber (s : List Char) : Option (ℚ × List Char) :=
  let ds := s.takeWhile Char.isDigit
  if ds.isEmpty then none
  else
    let s₁ := s.drop ds.length
    match s₁ with
    | '.' :: s₂ =>
      let fs := s₂.takeWhile Char.isDigit
      some (qOfNumber ds fs, s₂.drop fs.length)
    | _ => some (qOfNumber ds [], s₁)

/-- `re.search`: return the leftmost successful anchored match. -/
def searchFirst (f : List Char → Option α) : List Char → Option α
  | [] => none
  | c :: cs =>
    match f (c :: cs) with
    | some a => some a
    | none => searchFirst f cs

/-- `re.finditer` worker, structurally recursive on a fuel bound (the
input length): collect non-overlapping matches left-to-right; each
anchored matcher returns its captures plus the input remaining after the
match (all matchers in this file consume at least one character, so the
fuel never runs out before the input does). -/
def finditerGo (f : List Char → Option (α × List Char)) : Nat → List Char → List α
  | 0, _ => []
  | _, [] => []
  | fuel + 1, c :: cs =>
    match f (c :: cs) with
    | some (a, rest) =>
      if rest.length < (c :: cs).length then a :: finditerGo f fuel rest
      else a :: finditerGo f fuel cs
    | none => finditerGo f fuel cs

/-- `re.finditer` over a whole input. -/
def finditer (f : List Char → Option (α × List Char)) (l : List Char) : List α :=
  finditerGo f l.length l

/-! ## Card Normalizer (`HandHistoryParser.normalize_card_notation`) -/

/-- `RANK_ORDER = "AKQJT98765432"` (also `RangeReportBuilder.RANK_ORDER` and
`HAND_RANK_ORDER` in the query service). -/
def RANK_ORDER : List Char := ['A', 'K', 'Q', 'J', 'T', '9', '8', '7', '6', '5', '4', '3', '2']

/-- `"AKQJT98765432".index(c)`; `none` models the `ValueError` on a
character outside the alphabet. -/
def rankIndex? (c : Char) : Option Nat :=
  RANK_ORDER.indexOf? c

/-- Embedding of `normalize_card_notation` (the source method name ends in a
token the verification toolchain reserves, hence the `label` spelling).
Reads characters 0, 1, 3, 4 of the raw string, sorts the two cards by rank
(high first), then chooses the suffix: suited check first, pair check
second.  Any failure (short string, unknown rank) yields `""`. -/
def normalize_card_label (cards : String) : String :=
  let cs := cards.data
  if cs.length < 4 then ""
  else
    match cs[0]?, cs[1]?, cs[3]?, cs[4]? with
    | some a_rank, some a_suit, some b_rank, some b_suit =>
      match rankIndex? a_rank, rankIndex? b_rank with
      | some ia, some ib =>
        let (c1r, c1s, c2r, c2s) :=
          if ia > ib then (b_rank, b_suit, a_rank, a_suit)
          else (a_rank, a_suit, b_rank, b_suit)
        let suffix : String :=
          if c1s = c2s then "s"
          else if c1r = c2r then ""
          else "o"
        String.mk [c1r, c2r] ++ suffix
      | _, _ => ""
    | _, _, _, _ => ""

/-! ## Position Mapper (`HandHistoryParser.get_position`) -/

/-- `pos_map.get(k, "UNKNOWN")`. -/
def posLookup (m : List (Nat × String)) (k : Nat) : String :=
  match m.find? (fun p => p.1 = k) with
  | some p => p.2
  | none => "UNKNOWN"

/-- Embedding of `get_position`: seats-after-button distance modulo the
table size, looked up in the per-table-size dictionary. -/
def get_position (seat_num button_seat total_seats : Int) : String :=
  if total_seats ≤ 0 then "UNKNOWN"
  else
    let k : Nat := ((seat_num - button_seat).emod total_seats).toNat
    if total_seats = 2 then
      posLookup [(0, "BTN"), (1, "BB")] k
    else if total_seats = 3 then
      posLookup [(0, "BTN"), (1, "SB"), (2, "BB")] k
    else if total_seats = 4 then
      posLookup [(0, "BTN"), (1, "SB"), (2, "BB"), (3, "CO")] k
    else if total_seats = 5 then
      posLookup [(0, "BTN"), (1, "SB"), (2, "BB"), (3, "EP(6)"), (4, "CO")] k
    else if total_seats = 6 then
      posLookup [(0, "BTN"), (1, "SB"), (2, "BB"), (3, "EP(6)"), (4, "MP(6)"), (5, "CO")] k
    else if total_seats = 7 then
      posLookup [(0, "BTN"), (1, "SB"), (2, "BB"), (3, "EP(7+)"), (4, "EP(7+)"),
        (5, "MP(7+)"), (6, "CO")] k
    else if total_seats = 8 then
      posLookup [(0, "BTN"), (1, "SB"), (2, "BB"), (3, "EP(7+)"), (4, "EP(7+)"),
        (5, "MP(7+)"), (6, "MP(7+)"), (7, "CO")] k
    else if total_seats = 9 then
      posLookup [(0, "BTN"), (1, "SB"), (2, "BB"), (3, "EP(7+)"), (4, "EP(7+)"),
        (5, "EP(7+)"), (6, "MP(7+)"), (7, "MP(7+)"), (8, "CO")] k
    else
      posLookup [(0, "BTN"), (1, "SB"), (2, "BB"), (3, "EP(7+)"), (4, "EP(7+)"),
        (5, "EP(7+)"), (6, "EP(7+)"), (7, "MP(7+)"), (8, "MP(7+)"), (9, "CO")] k

/-! ## Data model (`HandAction`, `PlayerHand`) -/

/-- `HandAction`: one action at a single decision point. -/
structure HandAction where
  player : String
  action_type : String
  amount : ℚ
  position : String
  stage : String
  pot_before : ℚ := 0
  stack_size : ℚ := 0
  amount_bb : ℚ := 0
  pot_odds : ℚ := 0
  bb_size : ℚ := 0
  tournament_stage : String := "start"
deriving DecidableEq

/-- `PlayerHand`: one showdown revelation for one player in one hand. -/
structure PlayerHand where
  player : String
  cards : String
  position : String
  actions : List HandAction
  tournament_id : String
  hand_id : String
  chunk_index : Nat
  order_index : Nat
  source_file : String
  bb_size : ℚ
deriving DecidableEq

/-! ## Categorizer (`RangeAnalyzer.categorize_*`) -/

/-- Embedding of `RangeAnalyzer.categorize_bet_size`: pot-relative bucket
for bets and raises (`pot_odds` is the precomputed `amount / pot` ratio). -/
def categorize_bet_size (action : HandAction) : String :=
  if ¬(action.action_type = "raise" ∨ action.action_type = "bet") then "N/A"
  else if action.pot_before = 0 then "OPEN"
  else
    let ratio := action.pot_odds
    if ratio < 0.33 then "<0.33x"
    else if ratio < 0.50 then "0.33x"
    else if ratio < 0.75 then "0.5x"
    else if ratio < 1.0 then "0.75x"
    else if ratio < 1.5 then "1x"
    else if ratio < 2.0 then "1.5x"
    else if ratio < 3.0 then "2x"
    else "3x+"

/-- Embedding of `RangeAnalyzer.categorize_bb_size`: big-blind bucket; the
preflop branch only labels raises and calls, anything else there falls
through to `"OTHER"`. -/
def categorize_bb_size (action : HandAction) : String :=
  if ¬(action.action_type = "raise" ∨ action.action_type = "bet" ∨
      action.action_type = "call") then "N/A"
  else
    let bb := action.amount_bb
    if action.stage = "preflop" then
      if action.action_type = "raise" then
        if bb < 2.5 then "MINRAISE"
        else if bb < 3.0 then "2.5BB"
        else if bb < 4.0 then "3BB"
        else if bb < 6.0 then "4-5BB"
        else if bb < 10.0 then "6-9BB"
        else "10BB+"
      else if action.action_type = "call" then
        if bb < 2.0 then "1BB_CALL"
        else if bb < 3.0 then "2BB_CALL"
        else if bb < 5.0 then "3-4BB_CALL"
        else "5BB+_CALL"
      else "OTHER"
    else
      if bb < 1.0 then "<1BB"
      else if bb < 3.0 then "1-3BB"
      else if bb < 6.0 then "3-6BB"
      else if bb < 10.0 then "6-10BB"
      else "10BB+"

/-- Embedding of `RangeAnalyzer.categorize_stack_size`. -/
def categorize_stack_size (stack_bb : ℚ) : String :=
  if stack_bb ≤ 0 then "UNKNOWN"
  else if stack_bb < 10 then "<10BB"
  else if stack_bb < 20 then "10-20BB"
  else if stack_bb < 30 then "20-30BB"
  else if stack_bb < 50 then "30-50BB"
  else if stack_bb < 80 then "50-80BB"
  else "80BB+"

/-! ## Hand parser patterns (`HandHistoryParser` pre-compiled regexes) -/

/-- `BUTTON_PATTERN = r"Seat #(\d+) is the button"`, anchored at head. -/
def matchButtonAt (s : List Char) : Option Nat :=
  (eatLit "Seat #".data s).bind fun r1 =>
  (eatDigits r1).bind fun dr =>
  (eatLit " is the button".data dr.2).map fun _ => dr.1

/-- The roman-numeral class `[IVXL]`. -/
def isRoman (c : Char) : Bool := c = 'I' || c = 'V' || c = 'X' || c = 'L'

/-- `BB_PATTERN = r"Hold\'em No Limit - Level [IVXL]+ \((\d+)/(\d+)\)"`,
anchored at head; yields the big-blind value (group 2). -/
def matchBBAt (s : List Char) : Option ℚ :=
  (eatLit "Hold'em No Limit - Level ".data s).bind fun r1 =>
    let rom := r1.takeWhile isRoman
    if rom.isEmpty then none
    else
      (eatLit " (".data (r1.drop rom.length)).bind fun r2 =>
      (eatDigits r2).bind fun d1 =>
      (eatLit "/".data d1.2).bind fun r3 =>
      (eatDigits r3).bind fun d2 =>
      (eatLit ")".data d2.2).map fun _ => (d2.1 : ℚ)

/-- `SEAT_PATTERN = r"Seat (\d+): ([^\s]+) \((\d+) in chips\)"`, anchored at
head; yields (seat, name, chips) and the remaining input. -/
def matchSeatAt (s : List Char) : Option ((Nat × String × Nat) × List Char) :=
  (eatLit "Seat ".data s).bind fun r1 =>
  (eatDigits r1).bind fun dseat =>
  (eatLit ": ".data dseat.2).bind fun r2 =>
    let name := r2.takeWhile (fun c => !isPySpace c)
    if name.isEmpty then none
    else
      (eatLit " (".data (r2.drop name.length)).bind fun r3 =>
      (eatDigits r3).bind fun dchips =>
      (eatLit " in chips)".data dchips.2).map fun r4 =>
        ((dseat.1, String.mk name, dchips.1), r4)

/-- `STAGE_PATTERN = r"\*\*\* (FLOP|TURN|RIVER) \*\*\*"`, anchored at head;
yields the lowercased street name. -/
def matchStageAt (s : List Char) : Option String :=
  (eatLit "*** ".data s).bind fun r1 =>
    match eatLit "FLOP".data r1 with
    | some r2 => (eatLit " ***".data r2).map fun _ => "flop"
    | none =>
      match eatLit "TURN".data r1 with
      | some r2 => (eatLit " ***".data r2).map fun _ => "turn"
      | none =>
        match eatLit "RIVER".data r1 with
        | some r2 => (eatLit " ***".data r2).map fun _ => "river"
        | none => none

/-- The name class `[^\s:]` of the action patterns. -/
def isNameChar (c : Char) : Bool := !(isPySpace c || c = ':')

/-- One entry of `ACTION_PATTERNS`, anchored at head.  `kind` selects the
pattern; the returned rational is the captured amount: the `to`-amount
(group 3) for a raise, group 2 for bet/call, and `0.0` for fold/check
(mirroring the amount extraction in `parse_single_hand`). -/
def matchActionAt (kind : String) (s : List Char) : Option (String × ℚ) :=
  let name := s.takeWhile isNameChar
  if name.isEmpty then none
  else
    let rest := s.drop name.length
    if kind = "raise" then
      (eatLit ": raises ".data rest).bind fun r1 =>
      (eatNumber r1).bind fun n1 =>
      (eatLit " to ".data n1.2).bind fun r2 =>
      (eatNumber r2).map fun n2 => (String.mk name, n2.1)
    else if kind = "bet" then
      (eatLit ": bets ".data rest).bind fun r1 =>
      (eatNumber r1).map fun n1 => (String.mk name, n1.1)
    else if kind = "call" then
      (eatLit ": calls ".data rest).bind fun r1 =>
      (eatNumber r1).map fun n1 => (String.mk name, n1.1)
    else if kind = "fold" then
      (eatLit ": folds".data rest).map fun _ => (String.mk name, 0)
    else
      (eatLit ": checks".data rest).map fun _ => (String.mk name, 0)

/-- The tags of `ACTION_PATTERNS`, in priority order. -/
def ACTION_KINDS : List String := ["raise", "bet", "call", "fold", "check"]

/-- `SHOWN_PATTERN = r"Seat \d+: ([^\s]+) .*showed \[([^\]]+)\]"`: the
greedy `.*` (which cannot cross a newline) backtracks from the end of the
line, so the matcher tries the largest same-line offset first.  Anchored
attempt of the `showed \[...\]` tail. -/
def tryShowedAt (s : List Char) : Option (String × List Char) :=
  (eatLit "showed [".data s).bind fun r1 =>
    let cards := r1.takeWhile (fun c => c ≠ ']')
    if cards.isEmpty then none
    else
      (eatLit "]".data (r1.drop cards.length)).map fun r2 => (String.mk cards, r2)

/-- Try `tryShowedAt` at offsets `p, p-1, …, 0` (greedy `.*`). -/
def shownTailGo (s : List Char) : Nat → Option (String × List Char)
  | 0 => tryShowedAt s
  | p + 1 =>
    match tryShowedAt (s.drop (p + 1)) with
    | some r => some r
    | none => shownTailGo s p

/-- `SHOWN_PATTERN` anchored at head; yields (name, raw cards) and the
input remaining after the closing bracket. -/
def matchShownAt (s : List Char) : Option ((String × String) × List Char) :=
  (eatLit "Seat ".data s).bind fun r1 =>
  (eatDigits r1).bind fun dseat =>
  (eatLit ": ".data dseat.2).bind fun r2 =>
    let name := r2.takeWhile (fun c => !isPySpace c)
    if name.isEmpty then none
    else
      (eatLit " ".data (r2.drop name.length)).bind fun r3 =>
        let lineLen := (r3.takeWhile (fun c => c ≠ '\n')).length
        (shownTailGo r3 lineLen).map fun cr => ((String.mk name, cr.1), cr.2)

/-! ## Hand parser (`HandHistoryParser.parse_single_hand`) -/

/-- Value of the `players` dict: seat number and starting chips. -/
structure PlayerInfo where
  seat : Nat
  chips : Nat
deriving DecidableEq

/-- `players[player_name] = {...}`: overwrite-on-insert dict update. -/
def dictInsert (m : List (String × PlayerInfo)) (k : String) (v : PlayerInfo) :
    List (String × PlayerInfo) :=
  if m.any (fun p => p.1 = k) then m.map (fun p => if p.1 = k then (k, v) else p)
  else m ++ [(k, v)]

/-- The `players` dict built from all `SEAT_PATTERN` matches. -/
def buildPlayers (ms : List (Nat × String × Nat)) : List (String × PlayerInfo) :=
  ms.foldl (fun m t => dictInsert m t.2.1 ⟨t.1, t.2.2⟩) []

/-- The `for pattern, action_type in ACTION_PATTERNS` loop body: a pattern
that matches but names an unseated player is skipped (`continue`) and the
next pattern is tried; the first match naming a seated player wins. -/
def findActionGo (players : List (String × PlayerInfo)) (line : List Char) :
    List String → Option (String × PlayerInfo × String × ℚ)
  | [] => none
  | kind :: rest =>
    match searchFirst (matchActionAt kind) line with
    | none => findActionGo players line rest
    | some na =>
      match players.find? (fun p => p.1 = na.1) with
      | some p => some (na.1, p.2, kind, na.2)
      | none => findActionGo players line rest

/-- Search one hand-history line for an action. -/
def findAction (players : List (String × PlayerInfo)) (line : List Char) :
    Option (String × PlayerInfo × String × ℚ) :=
  findActionGo players line ACTION_KINDS

/-- Running state of the line walk: current street, running pot, and the
actions recorded so far (the flat form of `actions_by_player`). -/
structure LineState where
  stage : String
  pot : ℚ
  actions : List HandAction

/-- One iteration of the `for line in lines` loop: a street marker advances
the stage; otherwise the first applicable action pattern emits a
`HandAction` whose `pot_before` is the pot as seen by the actor, and the
pot grows by the committed chips of raise/bet/call afterwards. -/
def processLine (players : List (String × PlayerInfo)) (button_seat : Nat)
    (total_seats : Nat) (bb_size : ℚ) (tournament_stage : String)
    (st : LineState) (line : List Char) : LineState :=
  match searchFirst matchStageAt line with
  | some stage => { st with stage := stage }
  | none =>
    match findAction players line with
    | none => st
    | some nika =>
      let name := nika.1
      let info := nika.2.1
      let kind := nika.2.2.1
      let amount := nika.2.2.2
      let position := get_position (info.seat : Int) (button_seat : Int) (total_seats : Int)
      let amount_bb := if bb_size > 0 then amount / bb_size else 0
      let pot_odds := if st.pot > 0 then amount / st.pot else 0
      let action : HandAction :=
        { player := name, action_type := kind, amount := amount, position := position,
          stage := st.stage, pot_before := st.pot, stack_size := (info.chips : ℚ),
          amount_bb := amount_bb, pot_odds := pot_odds, bb_size := bb_size,
          tournament_stage := tournament_stage }
      { stage := st.stage,
        pot := if kind = "raise" ∨ kind = "bet" ∨ kind = "call" then st.pot + amount
               else st.pot,
        actions := st.actions ++ [action] }

/-- The body of the `for match in SHOWN_PATTERN.finditer(hand_text)` loop:
a showdown line for an unseated player or with unnormalizable cards adds
nothing; otherwise one `PlayerHand` carrying the player's recorded actions
is appended. -/
def shownFoldStep (players : List (String × PlayerInfo)) (button_seat total_seats : Nat)
    (bb_size : ℚ) (st : LineState) (tournament_id hand_id : String)
    (chunk_index order_index : Nat) (source_file : String)
    (acc : List PlayerHand) (nc : String × String) : List PlayerHand :=
  match players.find? (fun p => p.1 = nc.1) with
  | none => acc
  | some p =>
    let position := get_position (p.2.seat : Int) (button_seat : Int) (total_seats : Int)
    let normalized := normalize_card_label nc.2
    if normalized = "" then acc
    else acc ++ [{ player := nc.1, cards := normalized, position := position,
                   actions := st.actions.filter (fun a => a.player = nc.1),
                   tournament_id := tournament_id, hand_id := hand_id,
                   chunk_index := chunk_index, order_index := order_index,
                   source_file := source_file, bb_size := bb_size }]

/-- Embedding of `parse_single_hand`: drop hands of fewer than 5 stripped
lines or without a button marker, read the big blind (default `1.0`), build
the seat dict, walk the lines, then emit one `PlayerHand` per showdown line
whose player is seated and whose cards normalize non-empty. -/
def parse_single_hand (hand_text : String) (tournament_stage : String := "start")
    (tournament_id : String := "") (hand_id : String := "") (chunk_index : Nat := 0)
    (order_index : Nat := 0) (source_file : String := "") : List PlayerHand :=
  let cs := hand_text.data
  let lines := splitNl (pyStrip cs)
  if lines.length < 5 then []
  else
    match searchFirst matchButtonAt cs with
    | none => []
    | some button_seat =>
      let bb_size : ℚ :=
        match searchFirst matchBBAt cs with
        | some bb => bb
        | none => 1
      let players := buildPlayers (finditer matchSeatAt cs)
      let total_seats := players.length
      let st := lines.foldl
        (processLine players button_seat total_seats bb_size tournament_stage)
        ⟨"preflop", 0, []⟩
      (finditer matchShownAt cs).foldl
        (shownFoldStep players button_seat total_seats bb_size st tournament_id
          hand_id chunk_index order_index source_file)
        []

/-! ## Tournament stage classifier (`HandHistoryParser._build_stage_map`) -/

/-- `FINISH_PATTERN = r"finished the tournament in (\d+)"`, anchored at
head; yields the place and the remaining input. -/
def matchFinishAt (s : List Char) : Option (Nat × List Char) :=
  (eatLit "finished the tournament in ".data s).bind fun r1 => eatDigits r1

/-- `PAYOUT_PATTERN = r"finished the tournament in (\d+)[^\n]*received \$"`,
anchored at head: after the place, `received $` must occur later on the
same line. -/
def matchPayoutAt (s : List Char) : Option Nat :=
  (eatLit "finished the tournament in ".data s).bind fun r1 =>
  (eatDigits r1).bind fun d =>
    let lineRest := d.2.takeWhile (fun c => c ≠ '\n')
    (searchFirst (eatLit "received $".data) lineRest).map fun _ => d.1

/-- `PAYOUT_PATTERN.search(text)` as a Boolean. -/
def payoutFound (text : String) : Bool :=
  (searchFirst matchPayoutAt text.data).isSome

/-- All finishing places in a hand text (`FINISH_PATTERN.finditer`). -/
def finishPlaces (text : String) : List Nat :=
  finditer matchFinishAt text.data

/-- One element of `hand_entries` as consumed by `_build_stage_map`. -/
structure HandEntry where
  id : String
  text : String
  level : String
  order : Nat
deriving DecidableEq

/-- The earliest entry whose text matches the payout pattern. -/
def firstPayoutEntry (entries : List HandEntry) : Option HandEntry :=
  entries.find? (fun e => payoutFound e.text)

/-- `first_payout_index`. -/
def firstPayoutIndex (entries : List HandEntry) : Option Nat :=
  (firstPayoutEntry entries).map (fun e => e.order)

/-- `bubble_level`: level label of the first-payout hand. -/
def bubbleLevel (entries : List HandEntry) : Option String :=
  (firstPayoutEntry entries).map (fun e => e.level)

/-- Whether an entry contains some finishing place `≤ 9`. -/
def hasFinalFinish (e : HandEntry) : Bool :=
  (finishPlaces e.text).any (fun p => p ≤ 9)

/-- `first_final_table_index`: order of the earliest entry with a
finishing place `≤ 9`. -/
def firstFinalTableIndex (entries : List HandEntry) : Option Nat :=
  (entries.find? hasFinalFinish).map (fun e => e.order)

/-- `levels_in_order`: distinct level labels in order of first appearance. -/
def levelsInOrder (entries : List HandEntry) : List String :=
  entries.foldl (fun acc e => if acc.contains e.level then acc else acc ++ [e.level]) []

/-- `pre_bubble_levels`: the slice
`levels_in_order[max(0, pos-3):pos]` below the bubble level. -/
def preBubbleLevels (entries : List HandEntry) : List String :=
  match bubbleLevel entries with
  | none => []
  | some bl =>
    if bl != "" && (levelsInOrder entries).contains bl then
      let pos := (levelsInOrder entries).indexOf bl
      ((levelsInOrder entries).take pos).drop (pos - 3)
    else []

/-- The per-entry assignment rule of `_build_stage_map` (the body of its
second loop), evaluated in priority order: final table, bubble,
pre-bubble, start. -/
def stageOf (entries : List HandEntry) (e : HandEntry) : String :=
  if (match firstFinalTableIndex entries with
      | some i => decide (i ≤ e.order)
      | none => false) then "final_table"
  else if (match firstPayoutIndex entries, bubbleLevel entries with
      | some i, some bl => bl != "" && e.level == bl && decide (i ≤ e.order)
      | _, _ => false) then "bubble"
  else if (match firstPayoutIndex entries with
      | some i => (preBubbleLevels entries).contains e.level && decide (e.order < i)
      | none => false) then "pre_bubble"
  else "start"

/-- `stage_map[entry["id"]] = stage`: overwrite-on-insert string dict. -/
def strDictInsert (m : List (String × String)) (k v : String) : List (String × String) :=
  if m.any (fun p => p.1 = k) then m.map (fun p => if p.1 = k then (k, v) else p)
  else m ++ [(k, v)]

/-- Embedding of `_build_stage_map`: the id-keyed stage dict. -/
def build_stage_map (entries : List HandEntry) : List (String × String) :=
  entries.foldl (fun m e => strDictInsert m e.id (stageOf entries e)) []

/-! ## Report builder combo ordering (`RangeReportBuilder._hand_rank`) -/

/-- Stable insertion into a list sorted by the Boolean relation `le`
(`le x y` means `x` may come before `y`). -/
def insertLe (le : α → α → Bool) (x : α) : List α → List α
  | [] => [x]
  | y :: ys => if le x y then x :: y :: ys else y :: insertLe le x ys

/-- Stable sort by `le` (the semantics of Python `sorted` with a key). -/
def sortLe (le : α → α → Bool) (l : List α) : List α :=
  l.foldr (insertLe le) []

/-- Embedding of `RangeReportBuilder._hand_rank`: pairs are keyed
`index * -100`, other combos `high * -10 + low` (the suffix character is
ignored).  A character outside `RANK_ORDER` would raise `ValueError` in
Python; the labels stored in the warehouse never contain one, and
`List.indexOf` totalises that case as 13. -/
def hand_rank (hand : String) : Int :=
  if hand.length = 2 then
    (RANK_ORDER.indexOf (hand.data.getD 0 ' ') : Int) * (-100)
  else
    let high : Int := (RANK_ORDER.indexOf (hand.data.getD 0 ' ') : Int)
    let low : Int := (RANK_ORDER.indexOf (hand.data.getD 1 ' ') : Int)
    high * (-10) + low

/-- `sorted(rows, key=lambda row: self._hand_rank(row[0]))` in
`RangeReportBuilder._query_combos` (and `_query_bucket`). -/
def sort_combos (rows : List (String × Nat)) : List (String × Nat) :=
  sortLe (fun a b => hand_rank a.1 ≤ hand_rank b.1) rows

/-! ## Query service (`range_query_service.py`) -/

/-- `hand_rank_key`: the tuple key of the query service (pairs first via
the `-100` head, then the collapsed `first * 2 + second` key). -/
def hand_rank_key (hand : String) : Int × Int :=
  if hand.length = 2 then
    (-100, (RANK_ORDER.indexOf (hand.data.getD 0 ' ') : Int))
  else
    let first : Int := (RANK_ORDER.indexOf (hand.data.getD 0 ' ') : Int)
    let second : Int :=
      if hand.length > 1 then (RANK_ORDER.indexOf (hand.data.getD 1 ' ') : Int) else first
    (-10, first * 2 + second)

/-- Lexicographic comparison of the tuple keys (Python tuple `<=`). -/
def pairLe (a b : Int × Int) : Bool :=
  a.1 < b.1 || (a.1 = b.1 && a.2 ≤ b.2)

/-- `round(x, 2)` modelled on exact rationals (Python rounds floats
half-to-even; no statement in this file depends on a half-way case). -/
def round2 (q : ℚ) : ℚ := (round (q * 100) : ℤ) / 100

/-- `statistics.median` of a list of counts. -/
def medianQ (counts : List Nat) : ℚ :=
  let s := sortLe (fun a b => a ≤ b) counts
  let n := s.length
  if n = 0 then 0
  else if n % 2 = 1 then (s.getD (n / 2) 0 : ℚ)
  else ((s.getD (n / 2 - 1) 0 : ℚ) + (s.getD (n / 2) 0 : ℚ)) / 2

/-- The summary object produced by `build_summary`: the `hands` dict in its
insertion (sorted) order, plus the aggregate statistics. -/
structure Summary where
  hands : List (String × Nat × ℚ)
  total_instances : Nat
  unique_combos : Nat
  median_frequency_pct : ℚ
deriving DecidableEq

/-- Embedding of `build_summary`: convert `(hand, count)` rows into
frequency statistics. -/
def build_summary (rows : List (String × Nat)) : Summary :=
  let total : Nat := (rows.map (fun r => r.2)).sum
  { hands :=
      (sortLe (fun a b => pairLe (hand_rank_key a.1) (hand_rank_key b.1)) rows).map
        (fun r =>
          (r.1, r.2, round2 (if total ≠ 0 then (r.2 : ℚ) / (total : ℚ) * 100 else 0)))
    total_instances := total
    unique_combos := rows.length
    median_frequency_pct :=
      round2 (if total ≠ 0 ∧ rows ≠ [] then
          medianQ (rows.map (fun r => r.2)) / (total : ℚ) * 100
        else 0) }

/-- One row of the `range_occurrences` fact table (§6 schema).  The four
bucket-ish TEXT columns are nullable in SQL and therefore `Option`-valued
here; the ingest path always writes them non-null. -/
structure Row where
  tournament_id : String
  hand_id : String
  chunk_index : Int
  order_index : Int
  player : String
  position : String
  stage : String
  action : String
  cards : String
  tournament_stage : Option String
  pot_bucket : Option String
  bb_bucket : Option String
  stack_bucket : Option String
  action_amount : ℚ
  pot_before : ℚ
  stack_size : ℚ
  stack_size_bb : ℚ
  bb_size : ℚ
  amount_bb : ℚ
  pot_odds : ℚ
  showdown : Bool
  source_file : String
deriving DecidableEq

/-- `RangeQueryFilters`.  `limit` is kept as a natural number: the source
stores a Python int, and a negative `LIMIT` would be a DuckDB error, a path
no statement here exercises. -/
structure RangeQueryFilters where
  position : Option String := none
  stage : Option String := none
  action : Option String := none
  tournament_stage : Option String := none
  pot_bucket : Option String := none
  bb_bucket : Option String := none
  stack_bucket : Option String := none
  player : Option String := none
  tournament_id : Option String := none
  stack_bb_min : Option ℚ := none
  stack_bb_max : Option ℚ := none
  cards : Option String := none
  limit : Option Nat := none
deriving DecidableEq

/-- Python truthiness of an optional string (`if value:`): present and
non-empty. -/
def truthyStr : Option String → Bool
  | none => false
  | some s => !(s == "")

/-- SQL `column = ?` on a nullable column: `NULL` compares not-true. -/
def colEq : Option String → String → Bool
  | none, _ => false
  | some s, v => s == v

/-- One equality predicate of `_build_where` on a non-null column; added
only when the filter value is truthy. -/
def passStrFilter (fv : Option String) (col : String) : Bool :=
  match fv with
  | none => true
  | some v => if v == "" then true else col == v

/-- One equality predicate of `_build_where` on a nullable column. -/
def passOptColFilter (fv : Option String) (col : Option String) : Bool :=
  match fv with
  | none => true
  | some v => if v == "" then true else colEq col v

/-- The conjunction of all `_build_where` predicates for one row
(equality filters under truthiness, range filters under `is not None`). -/
def matchesFilters (f : RangeQueryFilters) (r : Row) : Bool :=
  passStrFilter f.position r.position &&
  passStrFilter f.stage r.stage &&
  passStrFilter f.action r.action &&
  passOptColFilter f.tournament_stage r.tournament_stage &&
  passOptColFilter f.pot_bucket r.pot_bucket &&
  passOptColFilter f.bb_bucket r.bb_bucket &&
  passOptColFilter f.stack_bucket r.stack_bucket &&
  passStrFilter f.player r.player &&
  passStrFilter f.tournament_id r.tournament_id &&
  passStrFilter f.cards r.cards &&
  (match f.stack_bb_min with
   | none => true
   | some v => decide (v ≤ r.stack_size_bb)) &&
  (match f.stack_bb_max with
   | none => true
   | some v => decide (r.stack_size_bb ≤ v))

/-- `GROUP BY key` with `COUNT(*)`: the distinct keys of the filtered rows,
each with its multiplicity (SQL leaves the group order unspecified; this
model uses the order of `List.dedup`). -/
def groupCounts {α κ : Type} [DecidableEq κ] (l : List α) (key : α → κ) : List (κ × Nat) :=
  ((l.map key).dedup).map (fun k => (k, (l.filter (fun x => key x = k)).length))

/-- `RangeQueryService._query_all`: group the matching rows by `cards`,
order by count descending, and apply `LIMIT` only when the limit filter is
truthy (a supplied limit of `0` adds no clause). -/
def query_all (rows : List Row) (f : RangeQueryFilters) : List (String × Nat) :=
  let matched := rows.filter (matchesFilters f)
  let ordered := sortLe (fun a b => b.2 ≤ a.2) (groupCounts matched (fun r => r.cards))
  match f.limit with
  | some n => if n = 0 then ordered else ordered.take n
  | none => ordered

/-- `COALESCE(col, default)`. -/
def coalesce (o : Option String) (d : String) : String := o.getD d

/-- `RangeQueryService._query_bucket`: group the matching rows by
(bucket expression, cards) with counts.  The SQL `ORDER BY` only affects
presentation order inside each bucket and is dropped here. -/
def query_bucket (rows : List Row) (f : RangeQueryFilters) (bucketOf : Row → String) :
    List (String × String × Nat) :=
  (groupCounts (rows.filter (matchesFilters f)) (fun r => (bucketOf r, r.cards))).map
    (fun g => (g.1.1, g.1.2, g.2))

/-- `RangeQueryService._group_bucket_rows`: partition the triples by
bucket, keeping each bucket's `(hand, count)` rows. -/
def group_bucket_rows (rows : List (String × String × Nat)) :
    List (String × List (String × Nat)) :=
  ((rows.map (fun t => t.1)).dedup).map
    (fun b => (b, (rows.filter (fun t => t.1 = b)).map (fun t => (t.2.1, t.2.2))))

/-- A bucketed view: each bucket wrapped in its `build_summary`. -/
def bucketSummaries (rows : List (String × String × Nat)) : List (String × Summary) :=
  (group_bucket_rows rows).map (fun g => (g.1, build_summary g.2))

/-- The response payload of `query_ranges` (the echoed `filters` field is
omitted; it is the input unchanged). -/
structure QueryResult where
  all : Summary
  by_pot_size : List (String × Summary)
  by_bb_size : List (String × Summary)
  by_stack_bucket : List (String × Summary)
  by_tournament_stage : List (String × Summary)
deriving DecidableEq

/-- The body of `query_ranges` after validation: the five aggregate
queries and their shaping. -/
def run_query (rows : List Row) (f : RangeQueryFilters) : QueryResult :=
  { all := build_summary (query_all rows f)
    by_pot_size :=
      bucketSummaries (query_bucket rows f (fun r => coalesce r.pot_bucket "N/A"))
    by_bb_size :=
      bucketSummaries (query_bucket rows f (fun r => coalesce r.bb_bucket "N/A"))
    by_stack_bucket :=
      bucketSummaries (query_bucket rows f (fun r => coalesce r.stack_bucket "UNKNOWN"))
    by_tournament_stage :=
      bucketSummaries (query_bucket rows f (fun r => coalesce r.tournament_stage "UNKNOWN")) }

/-- The `position and stage and action` requirement (Python truthiness). -/
def requiredPresent (f : RangeQueryFilters) : Bool :=
  truthyStr f.position && truthyStr f.stage && truthyStr f.action

/-- Embedding of `RangeQueryService.query_ranges`: the raised `ValueError`
becomes the `Except.error` message. -/
def query_ranges (rows : List Row) (f : RangeQueryFilters) : Except String QueryResult :=
  if requiredPresent f then Except.ok (run_query rows f)
  else Except.error "position, stage, and action filters are required"

/-- The `/ranges` branch of `_APIRequestHandler.do_GET` after filter
parsing: a `ValueError` from `query_ranges` is sent as HTTP 400 with the
message in the `error` field, success as HTTP 200 (the 404/500 paths and
filter-parsing errors are outside the statements made here). -/
def handle_ranges_request (rows : List Row) (f : RangeQueryFilters) : Nat × Option String :=
  match query_ranges rows f with
  | Except.ok _ => (200, none)
  | Except.error msg => (400, some msg)

/-! ## Theorems -/

/-- C6: a preflop raise action of 300 chips with a big blind of 100 and a
pot of 150 before the action is derived (by the formulas of
`parse_single_hand`) as `amount_bb = 3` and `pot_odds = 2.0`, and the
categorizers bucket it as `bb_bucket = "3BB"` and `pot_bucket = "2x"`. -/
theorem c6_preflop_raise_300 :
    (HandAction.amount_bb
      { player := "p", action_type := "raise", amount := 300, position := "BTN",
        stage := "preflop", pot_before := 150, stack_size := 0,
        amount_bb := if (100 : ℚ) > 0 then 300 / 100 else 0,
        pot_odds := if (150 : ℚ) > 0 then 300 / 150 else 0,
        bb_size := 100, tournament_stage := "start" } = 3) ∧
    (HandAction.pot_odds
      { player := "p", action_type := "raise", amount := 300, position := "BTN",
        stage := "preflop", pot_before := 150, stack_size := 0,
        amount_bb := if (100 : ℚ) > 0 then 300 / 100 else 0,
        pot_odds := if (150 : ℚ) > 0 then 300 / 150 else 0,
        bb_size := 100, tournament_stage := "start" } = 2) ∧
    categorize_bb_size
      { player := "p", action_type := "raise", amount := 300, position := "BTN",
        stage := "preflop", pot_before := 150, stack_size := 0,
        amount_bb := if (100 : ℚ) > 0 then 300 / 100 else 0,
        pot_odds := if (150 : ℚ) > 0 then 300 / 150 else 0,
        bb_size := 100, tournament_stage := "start" } = "3BB" ∧
    categorize_bet_size
      { player := "p", action_type := "raise", amount := 300, position := "BTN",
        stage := "preflop", pot_before := 150, stack_size := 0,
        amount_bb := if (100 : ℚ) > 0 then 300 / 100 else 0,
        pot_odds := if (150 : ℚ) > 0 then 300 / 150 else 0,
        bb_size := 100, tournament_stage := "start" } = "2x" := by
  refine ⟨by norm_num, by norm_num, ?_, ?_⟩
  · norm_num [categorize_bb_size]
  · norm_num [categorize_bet_size]

/-- C4 (counterexample): `normalize_card_notation` checks the suited rule
before the pair rule, so a raw string whose two ranks are equal but whose
suits are also equal gets the three-character suited label, not the
two-character pair label the claim requires for every equal-rank input. -/
theorem c4_counterexample : normalize_card_label "Ac Ac" = "AAs" := by decide

/-- C4 (amended): for a raw two-card string whose two rank characters are
equal (and a recognized rank), the pair label with no suffix is produced
provided the two suit characters differ; with equal suits the suited rule
wins first and appends `s`. -/
theorem c4_pair_label (cards : String) (r s1 s2 : Char) (i : Nat)
    (h0 : cards.data[0]? = some r) (h1 : cards.data[1]? = some s1)
    (h3 : cards.data[3]? = some r) (h4 : cards.data[4]? = some s2)
    (hr : rankIndex? r = some i) (hs : s1 ≠ s2) :
    normalize_card_label cards = String.mk [r, r] := by
  have h4' : 4 < cards.data.length := by
    rcases List.getElem?_eq_some.mp h4 with ⟨hlt, _⟩
    exact hlt
  have hlen : ¬ cards.data.length < 4 := by omega
  unfold normalize_card_label
  simp only [hlen, if_false, h0, h1, h3, h4, hr, lt_irrefl, if_neg hs]
  simp

/-- Witness for `c4_pair_label` at the concrete input `"7h 7d"`. -/
theorem c4_pair_label_witness : normalize_card_label "7h 7d" = String.mk ['7', '7'] :=
  c4_pair_label "7h 7d" '7' 'h' 'd' 7 (by decide) (by decide) (by decide) (by decide)
    (by decide) (by decide)

/-- C3 (counterexample): at an 11-seat table the seat at seats-after-button
distance `T - 1 = 10` is not `CO` — the 10+ position dictionary only maps
distances 0–9, so the lookup falls back to `UNKNOWN`. -/
theorem c3_counterexample :
    ((11 : Int) - 1).emod 11 = 11 - 1 ∧ get_position 11 1 11 = "UNKNOWN" := by decide

/-- C3 (amended): for table sizes 4 ≤ T ≤ 10 the seat at distance `T - 1`
from the button maps to `CO`, and for every `T ≥ 2` the seat at distance 0
(the button itself) maps to `BTN`; for `T ≥ 11` the distance `T - 1` is
outside the 10+ dictionary and yields `UNKNOWN` instead of `CO`. -/
theorem c3_cutoff_and_button (seat button T : Int) :
    (4 ≤ T → T ≤ 10 → (seat - button).emod T = T - 1 →
      get_position seat button T = "CO") ∧
    (2 ≤ T → (seat - button).emod T = 0 →
      get_position seat button T = "BTN") := by
  constructor
  · intro h4 h10 hk
    interval_cases T <;>
      simp_all [get_position, posLookup]
  · intro h2 hk
    have hT : ¬ T ≤ 0 := by omega
    unfold get_position
    simp only [hT, if_false, hk]
    split_ifs <;> simp [posLookup]

/-- Witness for `c3_cutoff_and_button` at a 6-max table with the button in
seat 4: seat 3 (distance 5) is `CO` and seat 4 (distance 0) is `BTN`. -/
theorem c3_cutoff_and_button_witness :
    get_position 3 4 6 = "CO" ∧ get_position 4 4 6 = "BTN" :=
  ⟨(c3_cutoff_and_button 3 4 6).1 (by decide) (by decide) (by decide),
   (c3_cutoff_and_button 4 4 6).2 (by decide) (by decide)⟩

/-- C2: the report builder's scalar `_hand_rank` key does not realize the
ordering the claim (and the query service's documented tuple key)
describes: the non-pair `KQo` sorts before the pair `AA`, `KK` sorts
before `AA` (pairs ascend from `22` to `AA`), and `AKs` and `AKo` receive
the same key, so suitedness breaks no tie. -/
theorem c2_hand_rank_misorders :
    sort_combos [("AA", 1), ("KQo", 1)] = [("KQo", 1), ("AA", 1)] ∧
    hand_rank "KK" < hand_rank "AA" ∧
    hand_rank "AKs" = hand_rank "AKo" := by decide

/-- C10: a hand whose stripped text has fewer than 5 lines is dropped by
`parse_single_hand` before any pattern is consulted. -/
theorem c10_short_hand_dropped (hand_text ts tid hid : String) (ci oi : Nat) (sf : String)
    (h : (splitNl (pyStrip hand_text.data)).length < 5) :
    parse_single_hand hand_text ts tid hid ci oi sf = [] := by
  unfold parse_single_hand
  simp [h]

/-- Four-line hand text containing a button marker, a level header and two
seat lines. -/
def c10_text : String :=
  "Seat #1 is the button\nHold'em No Limit - Level I (10/20)\nSeat 1: a (100 in chips)\nSeat 2: b (200 in chips)"

/-- Witness for `c10_short_hand_dropped`: the concrete four-line hand with
button, level and seats is still dropped. -/
theorem c10_short_hand_dropped_witness :
    (splitNl (pyStrip c10_text.data)).length < 5 ∧
    parse_single_hand c10_text "start" "t" "h" 0 0 "f" = [] :=
  ⟨by decide, c10_short_hand_dropped c10_text "start" "t" "h" 0 0 "f" (by decide)⟩

/-- C8 (counterexample): a filter set in which all three required filters
are present but `position` is the empty string still takes the error
branch — Python truthiness treats `""` like a missing filter — so "when
all three are present the error branch is not taken" fails as stated. -/
theorem c8_counterexample :
    query_ranges []
      { position := some "", stage := some "preflop", action := some "raise" }
      = Except.error "position, stage, and action filters are required" := rfl

/-- C8 (amended): `query_ranges` fails with the required-filters message
exactly when `position`, `stage` or `action` is missing **or empty**, and
the HTTP layer turns that `ValueError` into a 400 with the message in the
error field; with all three present and non-empty the error branch is not
taken.  `requiredPresent` is precisely "each of the three is supplied as a
non-empty string". -/
theorem c8_required_filters (rows : List Row) (f : RangeQueryFilters) :
    (requiredPresent f = false →
      query_ranges rows f = Except.error "position, stage, and action filters are required" ∧
      handle_ranges_request rows f
        = (400, some "position, stage, and action filters are required")) ∧
    (requiredPresent f = true →
      query_ranges rows f = Except.ok (run_query rows f) ∧
      handle_ranges_request rows f = (200, none)) ∧
    (requiredPresent f = true ↔
      ((∃ p, f.position = some p ∧ p ≠ "") ∧ (∃ s, f.stage = some s ∧ s ≠ "") ∧
        (∃ a, f.action = some a ∧ a ≠ ""))) := by
  refine ⟨fun h => ?_, fun h => ?_, ?_⟩
  · simp [query_ranges, handle_ranges_request, h]
  · simp [query_ranges, handle_ranges_request, h]
  · unfold requiredPresent truthyStr
    cases f.position <;> cases f.stage <;> cases f.action <;> simp [and_assoc]

/-- Witness for `c8_required_filters`: with the `action` filter missing the
service raises the message and the HTTP layer answers 400; with all three
supplied non-empty the error branch is not taken. -/
theorem c8_required_filters_witness :
    (query_ranges [] { position := some "BTN", stage := some "preflop" }
      = Except.error "position, stage, and action filters are required" ∧
     handle_ranges_request [] { position := some "BTN", stage := some "preflop" }
      = (400, some "position, stage, and action filters are required")) ∧
    (query_ranges [] { position := some "BTN", stage := some "preflop", action := some "raise" }
      = Except.ok (run_query []
          { position := some "BTN", stage := some "preflop", action := some "raise" }) ∧
     handle_ranges_request []
        { position := some "BTN", stage := some "preflop", action := some "raise" }
      = (200, none)) :=
  ⟨(c8_required_filters [] { position := some "BTN", stage := some "preflop" }).1 rfl,
   (c8_required_filters []
      { position := some "BTN", stage := some "preflop", action := some "raise" }).2.1 rfl⟩

/-- C5: in a tournament whose entries contain a hand with a finishing
place ≤ 9, `first_final_table_index` is set, and every hand whose
`order_index` is at least that index is classified `final_table` — the
first branch of the assignment rule, which by position takes priority over
the bubble and pre-bubble branches. -/
theorem c5_final_table_priority (entries : List HandEntry) (e : HandEntry)
    (he : e ∈ entries) (h9 : ∃ e2 ∈ entries, hasFinalFinish e2 = true)
    (i : Nat) (hfft : firstFinalTableIndex entries = some i) (hord : i ≤ e.order) :
    stageOf entries e = "final_table" ∧ (firstFinalTableIndex entries).isSome = true := by
  constructor
  · unfold stageOf
    rw [hfft]
    simp [hord]
  · rcases h9 with ⟨e2, he2, hfin⟩
    unfold firstFinalTableIndex
    have : (entries.find? hasFinalFinish).isSome = true :=
      List.find?_isSome.mpr ⟨e2, he2, hfin⟩
    rcases Option.isSome_iff_exists.mp this with ⟨e3, he3⟩
    simp [he3]

/-- A single-entry tournament whose hand reports a finishing place of 9. -/
def c5_entry : HandEntry :=
  { id := "a", text := "p finished the tournament in 9 and received $1",
    level := "V", order := 0 }

/-- Witness for `c5_final_table_priority` on the one-entry tournament. -/
theorem c5_final_table_priority_witness :
    stageOf [c5_entry] c5_entry = "final_table" ∧
    (firstFinalTableIndex [c5_entry]).isSome = true :=
  c5_final_table_priority [c5_entry] c5_entry (by decide)
    ⟨c5_entry, by decide, by decide⟩ 0 (by decide) (by decide)

/-- `POT_ORDER`: the bucket ordering of the report builder, also the
ordinal scale named by the spec's monotonicity property. -/
def POT_ORDER : List String :=
  ["OPEN", "<0.33x", "0.33x", "0.5x", "0.75x", "1x", "1.5x", "2x", "3x+"]

/-- Ordinal of a pot bucket label in `POT_ORDER`. -/
def potOrderIndex (s : String) : Nat := POT_ORDER.indexOf s

set_option maxHeartbeats 1000000 in
/-- C7: two bet/raise actions over the same positive pot, with their
`pot_odds` fields derived as `amount / pot_before` the way
`parse_single_hand` computes them, receive pot buckets whose `POT_ORDER`
ordinals are monotone in the amount. -/
theorem c7_pot_bucket_monotone (a b : HandAction)
    (hpot : a.pot_before = b.pot_before) (hpos : 0 < b.pot_before)
    (ha : a.action_type = "raise" ∨ a.action_type = "bet")
    (hb : b.action_type = "raise" ∨ b.action_type = "bet")
    (hoa : a.pot_odds = a.amount / a.pot_before)
    (hob : b.pot_odds = b.amount / b.pot_before)
    (hlt : a.amount < b.amount) :
    potOrderIndex (categorize_bet_size a) ≤ potOrderIndex (categorize_bet_size b) := by
  have hpa : 0 < a.pot_before := hpot ▸ hpos
  have hratio : a.pot_odds ≤ b.pot_odds := by
    rw [hoa, hob, hpot]
    gcongr

  unfold categorize_bet_size
  rw [if_neg (not_not_intro ha), if_neg (not_not_intro hb),
    if_neg hpa.ne', if_neg hpos.ne']
  dsimp only
  split_ifs <;> first | decide | (exfalso; linarith)

/-- A flop bet of 50 into a pot of 100 (`pot_odds = 0.5`). -/
def c7_small_bet : HandAction :=
  { player := "p", action_type := "bet", amount := 50, position := "BTN",
    stage := "flop", pot_before := 100, stack_size := 0, amount_bb := 0,
    pot_odds := 1 / 2, bb_size := 0, tournament_stage := "start" }

/-- A flop bet of 200 into a pot of 100 (`pot_odds = 2`). -/
def c7_big_bet : HandAction :=
  { player := "p", action_type := "bet", amount := 200, position := "BTN",
    stage := "flop", pot_before := 100, stack_size := 0, amount_bb := 0,
    pot_odds := 2, bb_size := 0, tournament_stage := "start" }

/-- Witness for `c7_pot_bucket_monotone` on the two concrete bets. -/
theorem c7_pot_bucket_monotone_witness :
    potOrderIndex (categorize_bet_size c7_small_bet)
      ≤ potOrderIndex (categorize_bet_size c7_big_bet) :=
  c7_pot_bucket_monotone c7_small_bet c7_big_bet rfl (by norm_num [c7_big_bet])
    (Or.inr rfl) (Or.inr rfl) (by norm_num [c7_small_bet])
    (by norm_num [c7_big_bet]) (by norm_num [c7_small_bet, c7_big_bet])

/-! ## Grouping-sum lemmas for the query service -/

/-- Summing a weight over the fibers listed in a nodup key list absorbs a
newly consed element into the fiber of its key. -/
theorem sum_fiber_cons_mem {α κ : Type} [DecidableEq κ] (w : α → ℕ) (key : α → κ)
    (x : α) (l : List α) (d : List κ) (hnd : d.Nodup) (hx : key x ∈ d) :
    (d.map (fun k => (((x :: l).filter (fun y => key y = k)).map w).sum)).sum
      = w x + (d.map (fun k => ((l.filter (fun y => key y = k)).map w).sum)).sum := by
  induction d with
  | nil => cases hx
  | cons k d ih =>
    rw [List.map_cons, List.sum_cons, List.map_cons, List.sum_cons]
    rcases List.mem_cons.mp hx with hxk | hxd
    · have hfk : (x :: l).filter (fun y => key y = k)
          = x :: l.filter (fun y => key y = k) := by
        simp [List.filter_cons, hxk]
      have hnotin : key x ∉ d := fun hc => (List.nodup_cons.mp hnd).1 (hxk ▸ hc)
      have htail : d.map (fun k2 => (((x :: l).filter (fun y => key y = k2)).map w).sum)
          = d.map (fun k2 => ((l.filter (fun y => key y = k2)).map w).sum) := by
        apply List.map_congr_left
        intro k2 hk2
        have hne : ¬ key x = k2 := fun hh => hnotin (hh ▸ hk2)
        simp [List.filter_cons, hne]
      rw [hfk, htail, List.map_cons, List.sum_cons]
      omega
    · have hk_ne : ¬ key x = k := fun hh => (List.nodup_cons.mp hnd).1 (hh ▸ hxd)
      have hfk : (x :: l).filter (fun y => key y = k)
          = l.filter (fun y => key y = k) := by
        simp [List.filter_cons, hk_ne]
      rw [hfk, ih (List.nodup_cons.mp hnd).2 hxd]
      omega

/-- Partition identity: summing a weight fiberwise over the distinct keys
equals summing it over the whole list. -/
theorem sum_map_fiber_eq {α κ : Type} [DecidableEq κ] (w : α → ℕ) (key : α → κ)
    (l : List α) :
    (((l.map key).dedup).map
        (fun k => ((l.filter (fun y => key y = k)).map w).sum)).sum
      = (l.map w).sum := by
  induction l with
  | nil => simp
  | cons x l ih =>
    rw [List.map_cons]
    by_cases hmem : key x ∈ l.map key
    · rw [List.dedup_cons_of_mem hmem,
        sum_fiber_cons_mem w key x l _ (List.nodup_dedup _) (List.mem_dedup.mpr hmem),
        ih, List.map_cons, List.sum_cons]
    · rw [List.dedup_cons_of_not_mem hmem, List.map_cons, List.sum_cons]
      have hhead : (x :: l).filter (fun y => key y = key x)
          = x :: l.filter (fun y => key y = key x) := by
        simp [List.filter_cons]
      have hnil : l.filter (fun y => key y = key x) = [] := by
        rw [List.filter_eq_nil_iff]
        intro a ha
        simp only [decide_eq_true_eq]
        exact fun hh => hmem (hh ▸ List.mem_map_of_mem key ha)
      have htail : (l.map key).dedup.map
            (fun k => (((x :: l).filter (fun y => key y = k)).map w).sum)
          = (l.map key).dedup.map
            (fun k => ((l.filter (fun y => key y = k)).map w).sum) := by
        apply List.map_congr_left
        intro k hk
        have hne : ¬ key x = k := fun hh => hmem (hh ▸ List.mem_dedup.mp hk)
        simp [List.filter_cons, hne]
      rw [hhead, hnil, htail, ih, List.map_cons, List.sum_cons]
      simp

/-- Sum of the constant weight 1 is the length. -/
theorem sum_map_one {α : Type} (l : List α) : (l.map (fun _ => (1 : ℕ))).sum = l.length := by
  induction l with
  | nil => rfl
  | cons x l ih => simp [ih, Nat.add_comm]

/-- The group counts of any grouping sum to the number of grouped rows. -/
theorem sum_groupCounts {α κ : Type} [DecidableEq κ] (l : List α) (key : α → κ) :
    ((groupCounts l key).map (fun g => g.2)).sum = l.length := by
  unfold groupCounts
  rw [List.map_map]
  have h := sum_map_fiber_eq (fun _ => (1 : ℕ)) key l
  simpa [Function.comp, sum_map_one] using h

/-- `insertLe` preserves sums of a weight over the list. -/
theorem sum_map_insertLe {α : Type} (le : α → α → Bool) (f : α → ℕ) (x : α) (l : List α) :
    ((insertLe le x l).map f).sum = f x + (l.map f).sum := by
  induction l with
  | nil => simp [insertLe]
  | cons y ys ih =>
    unfold insertLe
    by_cases h : le x y
    · simp [h]
    · simp [h, ih]
      omega

/-- Stable sorting preserves sums of a weight over the list. -/
theorem sum_map_sortLe {α : Type} (le : α → α → Bool) (f : α → ℕ) (l : List α) :
    ((sortLe le l).map f).sum = (l.map f).sum := by
  induction l with
  | nil => rfl
  | cons x l ih =>
    unfold sortLe at ih ⊢
    rw [List.foldr_cons, sum_map_insertLe, ih, List.map_cons, List.sum_cons]

/-- `build_summary` reports as `total_instances` the sum of the row counts. -/
theorem build_summary_total (rows : List (String × Nat)) :
    (build_summary rows).total_instances = (rows.map (fun r => r.2)).sum := rfl

/-- Without a limit, the counts of `_query_all` sum to the number of
matching rows. -/
theorem query_all_total (rows : List Row) (f : RangeQueryFilters) (hlim : f.limit = none) :
    ((query_all rows f).map (fun r => r.2)).sum
      = (rows.filter (matchesFilters f)).length := by
  unfold query_all
  simp only [hlim]
  rw [sum_map_sortLe]
  exact sum_groupCounts _ _

/-- The counts of `_query_bucket` sum to the number of matching rows. -/
theorem query_bucket_total (rows : List Row) (f : RangeQueryFilters) (bucketOf : Row → String) :
    ((query_bucket rows f bucketOf).map (fun t => t.2.2)).sum
      = (rows.filter (matchesFilters f)).length := by
  unfold query_bucket
  rw [List.map_map]
  have h := sum_groupCounts (rows.filter (matchesFilters f))
    (fun r => (bucketOf r, r.cards))
  simpa [Function.comp] using h

/-- The per-bucket `total_instances` of a bucketed view sum to the total
count of the underlying triples. -/
theorem bucketSummaries_total (t : List (String × String × Nat)) :
    ((bucketSummaries t).map (fun p => p.2.total_instances)).sum
      = (t.map (fun x => x.2.2)).sum := by
  unfold bucketSummaries group_bucket_rows
  simp only [List.map_map, Function.comp_def]
  have hcongr : ((t.map (fun x => x.1)).dedup).map
        (fun b => (build_summary ((t.filter (fun x => x.1 = b)).map
          (fun x => (x.2.1, x.2.2)))).total_instances)
      = ((t.map (fun x => x.1)).dedup).map
        (fun b => ((t.filter (fun x => x.1 = b)).map (fun x => x.2.2)).sum) := by
    apply List.map_congr_left
    intro b _
    rw [build_summary_total, List.map_map]
    rfl
  rw [hcongr]
  exact sum_map_fiber_eq (fun x => x.2.2) (fun x => x.1) t

/-- C1 (amended): for every filter set accepted by `query_ranges` in which
the optional `limit` filter is absent, the `all` summary's
`total_instances` equals the sum over buckets of the `by_pot_size`
summaries' `total_instances` (both equal the number of matching rows);
the LIMIT applied only to the `all` query breaks the identity when a
limit below the number of distinct combos is supplied. -/
theorem c1_all_total_eq_pot_bucket_sum (rows : List Row) (f : RangeQueryFilters)
    (hreq : requiredPresent f = true) (hlim : f.limit = none) :
    query_ranges rows f = Except.ok (run_query rows f) ∧
    (run_query rows f).all.total_instances
      = (((run_query rows f).by_pot_size).map (fun p => p.2.total_instances)).sum := by
  refine ⟨by simp [query_ranges, hreq], ?_⟩
  show (build_summary (query_all rows f)).total_instances
      = ((bucketSummaries (query_bucket rows f
          (fun r => coalesce r.pot_bucket "N/A"))).map (fun p => p.2.total_instances)).sum
  rw [build_summary_total, query_all_total rows f hlim, bucketSummaries_total,
    query_bucket_total]

/-- A warehouse row: a shown preflop raise, parameterized by cards and pot
bucket. -/
def c1_row (cards pot_bucket : String) : Row :=
  { tournament_id := "t", hand_id := "h", chunk_index := 0, order_index := 0,
    player := "p", position := "BTN", stage := "preflop", action := "raise",
    cards := cards, tournament_stage := some "start", pot_bucket := some pot_bucket,
    bb_bucket := some "3BB", stack_bucket := some "80BB+", action_amount := 300,
    pot_before := 0, stack_size := 1000, stack_size_bb := 10, bb_size := 100,
    amount_bb := 3, pot_odds := 0, showdown := true, source_file := "f" }

/-- Three matching rows: two `AA`, one `KK`. -/
def c1_rows : List Row := [c1_row "AA" "OPEN", c1_row "AA" "OPEN", c1_row "KK" "2x"]

/-- The required filters with `limit=1`. -/
def c1_limit_filters : RangeQueryFilters :=
  { position := some "BTN", stage := some "preflop", action := some "raise",
    limit := some 1 }

/-- The required filters without a limit. -/
def c1_nolimit_filters : RangeQueryFilters :=
  { position := some "BTN", stage := some "preflop", action := some "raise" }

/-- C1 (counterexample): with `limit=1` supplied, the accepted query over
the three-row warehouse reports `all.total_instances = 2` (only the
top combo survives the LIMIT) while the `by_pot_size` totals still sum to
3, so the claimed identity fails when a limit is supplied. -/
theorem c1_counterexample :
    query_ranges c1_rows c1_limit_filters = Except.ok (run_query c1_rows c1_limit_filters) ∧
    (run_query c1_rows c1_limit_filters).all.total_instances = 2 ∧
    (((run_query c1_rows c1_limit_filters).by_pot_size).map
      (fun p => p.2.total_instances)).sum = 3 := by
  refine ⟨rfl, ?_, ?_⟩ <;> decide

/-- Witness for `c1_all_total_eq_pot_bucket_sum` on the same three-row
warehouse without a limit. -/
theorem c1_all_total_eq_pot_bucket_sum_witness :
    query_ranges c1_rows c1_nolimit_filters
      = Except.ok (run_query c1_rows c1_nolimit_filters) ∧
    (run_query c1_rows c1_nolimit_filters).all.total_instances
      = (((run_query c1_rows c1_nolimit_filters).by_pot_size).map
          (fun p => p.2.total_instances)).sum :=
  c1_all_total_eq_pot_bucket_sum c1_rows c1_nolimit_filters rfl rfl

/-! ## Seat-membership invariant of the parser -/

/-- The player names captured by the `Seat N: NAME (CHIPS in chips)` lines
of a hand text. -/
def seatNames (text : String) : List String :=
  (finditer matchSeatAt text.data).map (fun t => t.2.1)

/-- A successful `findActionGo` names a player present in the dict. -/
theorem findActionGo_name_mem (players : List (String × PlayerInfo)) (line : List Char)
    (kinds : List String) (res : String × PlayerInfo × String × ℚ)
    (h : findActionGo players line kinds = some res) :
    ∃ p ∈ players, p.1 = res.1 := by
  induction kinds with
  | nil => simp [findActionGo] at h
  | cons kind rest ih =>
    unfold findActionGo at h
    split at h
    · exact ih h
    · split at h
      · rename_i na _ p hfind
        obtain rfl := Option.some.inj h
        refine ⟨p, List.mem_of_find?_eq_some hfind, ?_⟩
        simpa using List.find?_some hfind
      · exact ih h

/-- `processLine` only records actions naming players in the dict. -/
theorem processLine_actions_good (players : List (String × PlayerInfo)) (bs ts : Nat)
    (bb : ℚ) (tstage : String) (st : LineState) (line : List Char)
    (hst : ∀ a ∈ st.actions, ∃ p ∈ players, p.1 = a.player) :
    ∀ a ∈ (processLine players bs ts bb tstage st line).actions,
      ∃ p ∈ players, p.1 = a.player := by
  intro a ha
  unfold processLine at ha
  split at ha
  · exact hst a ha
  · split at ha
    · exact hst a ha
    · rename_i nika heq
      rcases List.mem_append.mp ha with h | h
      · exact hst a h
      · obtain rfl := List.mem_singleton.mp h
        exact findActionGo_name_mem players line ACTION_KINDS nika heq

/-- The whole line walk only records actions naming players in the dict. -/
theorem foldl_processLine_good (players : List (String × PlayerInfo)) (bs ts : Nat)
    (bb : ℚ) (tstage : String) (lines : List (List Char)) (st : LineState)
    (hst : ∀ a ∈ st.actions, ∃ p ∈ players, p.1 = a.player) :
    ∀ a ∈ (lines.foldl (processLine players bs ts bb tstage) st).actions,
      ∃ p ∈ players, p.1 = a.player := by
  induction lines generalizing st with
  | nil => exact hst
  | cons line rest ih =>
    rw [List.foldl_cons]
    exact ih _ (processLine_actions_good players bs ts bb tstage st line hst)

/-- A key present after a dict insert was present before or is the
inserted key. -/
theorem dictInsert_keys (m : List (String × PlayerInfo)) (k : String) (v : PlayerInfo)
    (x : String) (hx : x ∈ (dictInsert m k v).map Prod.fst) :
    x ∈ m.map Prod.fst ∨ x = k := by
  rcases List.mem_map.mp hx with ⟨p, hp, hxp⟩
  subst hxp
  unfold dictInsert at hp
  split at hp
  · rcases List.mem_map.mp hp with ⟨q, hq, hpq⟩
    by_cases hqk : q.1 = k
    · rw [if_pos hqk] at hpq
      subst hpq
      exact Or.inr rfl
    · rw [if_neg hqk] at hpq
      subst hpq
      exact Or.inl (List.mem_map_of_mem Prod.fst hq)
  · rcases List.mem_append.mp hp with h | h
    · exact Or.inl (List.mem_map_of_mem Prod.fst h)
    · obtain rfl := List.mem_singleton.mp h
      exact Or.inr rfl

/-- Every key of the seat dict is the captured name of some seat match. -/
theorem buildPlayers_keys (ms : List (Nat × String × Nat)) (p : String × PlayerInfo)
    (hp : p ∈ buildPlayers ms) :
    p.1 ∈ ms.map (fun t => t.2.1) := by
  suffices h : ∀ m : List (String × PlayerInfo),
      p ∈ ms.foldl (fun m t => dictInsert m t.2.1 ⟨t.1, t.2.2⟩) m →
      p.1 ∈ m.map Prod.fst ∨ p.1 ∈ ms.map (fun t => t.2.1) by
    rcases h [] hp with h1 | h1
    · simp at h1
    · exact h1
  clear hp
  intro m
  induction ms generalizing m with
  | nil =>
    intro h
    exact Or.inl (List.mem_map_of_mem Prod.fst h)
  | cons t rest ih =>
    intro h
    rw [List.foldl_cons] at h
    rcases ih (dictInsert m t.2.1 ⟨t.1, t.2.2⟩) h with h1 | h1
    · rcases dictInsert_keys m t.2.1 ⟨t.1, t.2.2⟩ p.1 h1 with h2 | h2
      · exact Or.inl h2
      · exact Or.inr (by simp [h2])
    · exact Or.inr (List.mem_cons_of_mem _ h1)

/-- The showdown loop only emits `PlayerHand`s whose player — and all of
whose carried actions — name players in the dict. -/
theorem shownFold_good (players : List (String × PlayerInfo)) (bs ts : Nat) (bb : ℚ)
    (st : LineState) (tid hid : String) (ci oi : Nat) (sf : String)
    (hst : ∀ a ∈ st.actions, ∃ p ∈ players, p.1 = a.player)
    (ms : List (String × String)) (acc : List PlayerHand)
    (hacc : ∀ ph ∈ acc, (∃ p ∈ players, p.1 = ph.player) ∧
      ∀ a ∈ ph.actions, ∃ p ∈ players, p.1 = a.player) :
    ∀ ph ∈ ms.foldl (shownFoldStep players bs ts bb st tid hid ci oi sf) acc,
      (∃ p ∈ players, p.1 = ph.player) ∧
      ∀ a ∈ ph.actions, ∃ p ∈ players, p.1 = a.player := by
  induction ms generalizing acc with
  | nil => exact hacc
  | cons nc rest ih =>
    rw [List.foldl_cons]
    apply ih
    intro ph hph
    unfold shownFoldStep at hph
    dsimp only at hph
    split at hph
    · exact hacc ph hph
    · rename_i p heq
      split at hph
      · exact hacc ph hph
      · rcases List.mem_append.mp hph with h | h
        · exact hacc ph h
        · obtain rfl := List.mem_singleton.mp h
          constructor
          · exact ⟨p, List.mem_of_find?_eq_some heq, by simpa using List.find?_some heq⟩
          · intro a ha
            exact hst a (List.mem_of_mem_filter ha)

/-- C9: every `PlayerHand` emitted by `parse_single_hand` names a player
captured by a seat line, and so does every `HandAction` it carries —
action and showdown lines for unseated names are filtered out. -/
theorem c9_seated_players_only (hand_text ts tid hid : String) (ci oi : Nat) (sf : String)
    (ph : PlayerHand)
    (hph : ph ∈ parse_single_hand hand_text ts tid hid ci oi sf) :
    ph.player ∈ seatNames hand_text ∧
    ∀ a ∈ ph.actions, a.player ∈ seatNames hand_text := by
  unfold parse_single_hand at hph
  dsimp only at hph
  split at hph
  · simp at hph
  · split at hph
    · simp at hph
    · rename_i bs hbs
      have hgood := shownFold_good
        (buildPlayers (finditer matchSeatAt hand_text.data)) bs
        (buildPlayers (finditer matchSeatAt hand_text.data)).length
        _ _ tid hid ci oi sf
        (foldl_processLine_good _ _ _ _ _ _ _ (by intro a ha; simp at ha))
        (finditer matchShownAt hand_text.data) [] (by intro ph hph; simp at hph)
        ph hph
      obtain ⟨⟨p, hpmem, hpname⟩, hacts⟩ := hgood
      constructor
      · rw [← hpname]
        exact buildPlayers_keys _ p hpmem
      · intro a ha
        obtain ⟨q, hqmem, hqname⟩ := hacts a ha
        rw [← hqname]
        exact buildPlayers_keys _ q hqmem

/-- A complete hand text: button marker, level header, two seats, a raise,
a fold, and one showdown line. -/
def c9_hand_text : String :=
  "PokerStars Hand #7: Tournament\nHold'em No Limit - Level II (50/100)\nTable 9 Seat #2 is the button\nSeat 1: hero (1500 in chips)\nSeat 2: villain (900 in chips)\nhero: raises 200 to 300\nvillain: folds\nSeat 1: hero (button) showed [Ah Kh]"

/-- The single action `parse_single_hand` records for the shown player of
`c9_hand_text`. -/
def c9_raise : HandAction :=
  { player := "hero", action_type := "raise", amount := 300, position := "BB",
    stage := "preflop", pot_before := 0, stack_size := 1500, amount_bb := 3,
    pot_odds := 0, bb_size := 100, tournament_stage := "start" }

/-- The `PlayerHand` `parse_single_hand` emits for `c9_hand_text`. -/
def c9_shown_hand : PlayerHand :=
  { player := "hero", cards := "AKs", position := "BB", actions := [c9_raise],
    tournament_id := "t", hand_id := "7", chunk_index := 0, order_index := 0,
    source_file := "f", bb_size := 100 }

set_option maxRecDepth 10000 in
/-- Witness for `c9_seated_players_only` on the concrete hand: the emitted
`PlayerHand` and its recorded action both name `hero`, a captured seat
name. -/
theorem c9_seated_players_only_witness :
    c9_shown_hand.player ∈ seatNames c9_hand_text ∧
    c9_raise.player ∈ seatNames c9_hand_text :=
  ⟨(c9_seated_players_only c9_hand_text "start" "t" "7" 0 0 "f" c9_shown_hand
      (of_decide_eq_true (by with_unfolding_all rfl))).1,
   (c9_seated_players_only c9_hand_text "start" "t" "7" 0 0 "f" c9_shown_hand
      (of_decide_eq_true (by with_unfolding_all rfl))).2 c9_raise
      (List.mem_singleton.mpr rfl)⟩

end PokerTools
